import Mathlib

/-!
Shallow embedding of the domain-event infrastructure of
`backend/app/domain/common/events.py`: the `DomainEvent` data model with its
pydantic validators, the in-memory event store, the retry policy, the
in-memory event bus with priority-ordered dispatch and per-handler retry,
and the transactional collect-then-publish context.

Modelling conventions:
- timestamps (`occurred_on`) are naturals; `version` is an integer as in Python;
- float retry-delay arithmetic is modelled over `ℚ` (all constants involved are
  exactly representable);
- a raised exception is represented by its type name (a `String`); handler
  behaviour is an explicit environment mapping (handler id, event, attempt) to
  `none` (normal return) or `some exn` (raise);
- `asyncio` scheduling and sleeping are irrelevant to the dispatch results and
  are not modelled; dispatch within one `publish` is sequential as in the source.
-/

inductive EventPriority where
  | low
  | normal
  | high
  | critical
deriving DecidableEq, Repr

/-- The numeric value of each priority level (`LOW = 0 … CRITICAL = 3`). -/
def EventPriority.value : EventPriority → Nat
  | .low => 0
  | .normal => 1
  | .high => 2
  | .critical => 3

inductive EventStatus where
  | created
  | published
  | processed
  | failed
  | retrying
deriving DecidableEq, Repr

/-- The fields of `DomainEvent` (pydantic model). -/
structure DomainEvent where
  event_id : String
  event_type : String
  aggregate_id : String
  aggregate_type : String
  version : Int
  occurred_on : Nat
  causation_id : Option String
  correlation_id : Option String
  priority : EventPriority
  status : EventStatus
  retry_count : Nat
  max_retries : Nat
  metadata : List (String × String)
deriving DecidableEq, Repr

/-- Keyword arguments handed to the `DomainEvent` constructor.  An outer
`none` on `correlation_id` means the key is absent from `values` (which is
what the `set_correlation_chain` validator tests); for the other optional
fields presence-with-`None` and absence are indistinguishable to the
validators, so a single `Option` layer suffices. -/
structure EventArgs where
  event_id : Option String
  event_type : Option String
  aggregate_id : String
  aggregate_type : String
  version : Option Int
  occurred_on : Option Nat
  causation_id : Option String
  correlation_id : Option (Option String)
  priority : Option EventPriority
  status : Option EventStatus
  retry_count : Option Nat
  max_retries : Option Nat
  metadata : Option (List (String × String))
deriving DecidableEq, Repr

/-- Python truthiness of an optional string value: `None` and `""` are falsy. -/
def truthyStr : Option String → Bool
  | none => false
  | some s => s ≠ ""

/-- `DomainEvent.set_correlation_chain` (model validator, mode `before`):
if `causation_id` is present and truthy and the `correlation_id` key is
absent, the correlation id inherits the causation id. -/
def set_correlation_chain (args : EventArgs) : EventArgs :=
  if truthyStr args.causation_id ∧ args.correlation_id = none then
    { args with correlation_id := some args.causation_id }
  else args

/-- Construction of a `DomainEvent`: run the validators, then fill defaults.
`className` stands for `cls.__name__` (used by the `set_event_type`
validator when `event_type` is falsy), `freshId` for the `uuid4()` default
factory and `now` for the `datetime.utcnow()` default factory. -/
def DomainEvent.construct (className freshId : String) (now : Nat)
    (args0 : EventArgs) : DomainEvent :=
  let args := set_correlation_chain args0
  { event_id := args.event_id.getD freshId
    event_type :=
      match args.event_type with
      | none => className
      | some s => if s = "" then className else s
    aggregate_id := args.aggregate_id
    aggregate_type := args.aggregate_type
    version := args.version.getD 1
    occurred_on := args.occurred_on.getD now
    causation_id := args.causation_id
    correlation_id := args.correlation_id.getD none
    priority := args.priority.getD .normal
    status := args.status.getD .created
    retry_count := args.retry_count.getD 0
    max_retries := args.max_retries.getD 3
    metadata := args.metadata.getD [] }

/-- `self.model_dump()` viewed as constructor arguments: every key present. -/
def DomainEvent.dumpArgs (e : DomainEvent) : EventArgs :=
  { event_id := some e.event_id
    event_type := some e.event_type
    aggregate_id := e.aggregate_id
    aggregate_type := e.aggregate_type
    version := some e.version
    occurred_on := some e.occurred_on
    causation_id := e.causation_id
    correlation_id := some e.correlation_id
    priority := some e.priority
    status := some e.status
    retry_count := some e.retry_count
    max_retries := some e.max_retries
    metadata := some e.metadata }

/-- `DomainEvent.mark_as_published`: dump, overwrite `status`, re-construct
through `self.__class__(**event_dict)`.  `className` is the event's class
name; the `freshId`/`now` defaults are irrelevant because every key is
present in the dump. -/
def DomainEvent.mark_as_published (className : String) (e : DomainEvent) : DomainEvent :=
  DomainEvent.construct className e.event_id e.occurred_on
    { e.dumpArgs with status := some .published }

/-- `DomainEvent.mark_as_processed`. -/
def DomainEvent.mark_as_processed (className : String) (e : DomainEvent) : DomainEvent :=
  DomainEvent.construct className e.event_id e.occurred_on
    { e.dumpArgs with status := some .processed }

/-- `DomainEvent.mark_as_failed`. -/
def DomainEvent.mark_as_failed (className : String) (e : DomainEvent) : DomainEvent :=
  DomainEvent.construct className e.event_id e.occurred_on
    { e.dumpArgs with status := some .failed }

/-- `InMemoryEventStore`: holds the `_events` list. -/
structure InMemoryEventStore where
  events : List DomainEvent
deriving DecidableEq, Repr

/-- `InMemoryEventStore.append`. -/
def InMemoryEventStore.append (s : InMemoryEventStore) (e : DomainEvent) :
    InMemoryEventStore :=
  ⟨s.events ++ [e]⟩

/-- `InMemoryEventStore.get_events_for_aggregate`: both identity fields match
and `version > since_version` (Python default `since_version=0`). -/
def InMemoryEventStore.get_events_for_aggregate (s : InMemoryEventStore)
    (aggregate_id aggregate_type : String) (since_version : Int) :
    List DomainEvent :=
  s.events.filter fun ev =>
    ev.aggregate_id == aggregate_id && ev.aggregate_type == aggregate_type &&
      decide (since_version < ev.version)

/-- `InMemoryEventStore.get_events_by_correlation_id`. -/
def InMemoryEventStore.get_events_by_correlation_id (s : InMemoryEventStore)
    (correlation_id : String) : List DomainEvent :=
  s.events.filter fun ev => ev.correlation_id == some correlation_id

/-- The filter predicate of `get_events_by_type`: matching type and
`occurred_on >= since` when `since` is given. -/
def typeSinceMatches (event_type : String) (since : Option Nat)
    (ev : DomainEvent) : Bool :=
  ev.event_type == event_type &&
    (match since with
     | none => true
     | some d => decide (d ≤ ev.occurred_on))

/-- `InMemoryEventStore.get_events_by_type` (Python default `limit=100`):
filter, then `filtered[-limit:] if limit > 0 else filtered`. -/
def InMemoryEventStore.get_events_by_type (s : InMemoryEventStore)
    (event_type : String) (since : Option Nat) (limit : Nat) :
    List DomainEvent :=
  let filtered_events := s.events.filter (typeSinceMatches event_type since)
  if 0 < limit then filtered_events.drop (filtered_events.length - limit)
  else filtered_events

/-- The data carried by an `EventHandler` object: its identity (standing for
Python object identity, which is what set membership and hashing use), its
`priority` property and its `supported_events` property (as type names).
Its `handle` behaviour lives in a separate `HandlerEnv`. -/
structure EventHandler where
  id : Nat
  priority : EventPriority
  supported_events : List String
deriving DecidableEq, Repr

/-- Behaviour of `handle`: given a handler id, the dispatched event and the
attempt index, return `none` (normal return) or `some exn` (raise). -/
def HandlerEnv : Type :=
  Nat → DomainEvent → Nat → Option String

/-- `RetryPolicy` (source defaults: `3, 1.5, 1.0, 60.0, []`). -/
structure RetryPolicy where
  max_retries : Nat
  backoff_factor : ℚ
  initial_delay : ℚ
  max_delay : ℚ
  retry_on_exceptions : List String
deriving DecidableEq, Repr

/-- The default `RetryPolicy()` (used by `InMemoryEventBus.__init__`). -/
def defaultRetryPolicy : RetryPolicy :=
  ⟨3, 3 / 2, 1, 60, []⟩

/-- `RetryPolicy.should_retry`: false once `attempt >= max_retries`;
otherwise retry on anything when the allow-list is empty, else only on a
listed exception type. -/
def RetryPolicy.should_retry (p : RetryPolicy) (exn : String) (attempt : Nat) : Bool :=
  if p.max_retries ≤ attempt then false
  else if p.retry_on_exceptions.isEmpty then true
  else p.retry_on_exceptions.contains exn

/-- `RetryPolicy.get_delay`: `min(initial_delay * backoff_factor**attempt, max_delay)`. -/
def RetryPolicy.get_delay (p : RetryPolicy) (attempt : Nat) : ℚ :=
  min (p.initial_delay * p.backoff_factor ^ attempt) p.max_delay

example : defaultRetryPolicy.should_retry "E" 3 = false := by decide
example : defaultRetryPolicy.should_retry "E" 2 = true := by decide
example : RetryPolicy.get_delay ⟨3, 2, 1, 10, []⟩ 3 = 8 := by
  norm_num [RetryPolicy.get_delay, min_def]
example : RetryPolicy.get_delay ⟨3, 2, 1, 10, []⟩ 10 = 10 := by
  norm_num [RetryPolicy.get_delay, min_def]

/-- The retry loop of `InMemoryEventBus._process_with_retry`, with explicit
fuel.  `fuel` is the number of `while attempt <= max_retries` iterations
still permitted (`max_retries + 1 - attempt`); `last` is `last_exception`.
Returns the list of attempt indices at which `handler.handle` was invoked,
and `none` on normal return or `some exn` when the loop re-raises the last
exception. -/
def retryAux (p : RetryPolicy) (env : HandlerEnv) (h : EventHandler)
    (e : DomainEvent) : Nat → Nat → Option String → List Nat × Option String
  | 0, _, last => ([], last)
  | fuel + 1, attempt, _ =>
    match env h.id e attempt with
    | none => ([attempt], none)
    | some exn =>
      if p.should_retry exn (attempt + 1) then
        let r := retryAux p env h e fuel (attempt + 1) (some exn)
        (attempt :: r.1, r.2)
      else ([attempt], some exn)

/-- `InMemoryEventBus._process_with_retry`: the retry loop started at
`attempt = 0` with no recorded exception. -/
def _process_with_retry (p : RetryPolicy) (env : HandlerEnv)
    (h : EventHandler) (e : DomainEvent) : List Nat × Option String :=
  retryAux p env h e (p.max_retries + 1) 0 none

/-- Dispatch order: `sorted(handlers, key=lambda h: h.priority.value,
reverse=True)` — a stable sort placing higher `priority.value` first. -/
def handlerGE (a b : EventHandler) : Prop :=
  b.priority.value ≤ a.priority.value

instance : DecidableRel handlerGE := fun a b =>
  Nat.decLe b.priority.value a.priority.value

instance : IsTotal EventHandler handlerGE :=
  ⟨fun a b => Nat.le_total b.priority.value a.priority.value⟩

instance : IsTrans EventHandler handlerGE :=
  ⟨fun _ _ _ hab hbc => Nat.le_trans hbc hab⟩

/-- Lookup in the `_handlers` dict; a missing key behaves as the empty set
(in `publish` a missing key returns early, which dispatches to nobody, the
same observable outcome). -/
def handlersFor (reg : List (String × List EventHandler)) (name : String) :
    List EventHandler :=
  match reg with
  | [] => []
  | (k, s) :: rest => if k = name then s else handlersFor rest name

/-- `set.add(handler)`: a no-op when already a member, insertion otherwise. -/
def setAdd (s : List EventHandler) (h : EventHandler) : List EventHandler :=
  if h ∈ s then s else s ++ [h]

/-- `self._handlers.setdefault(name, set()).add(handler)` — the
create-if-absent-then-add step of `subscribe`. -/
def registryAdd (reg : List (String × List EventHandler)) (name : String)
    (h : EventHandler) : List (String × List EventHandler) :=
  match reg with
  | [] => [(name, [h])]
  | (k, s) :: rest =>
    if k = name then (k, setAdd s h) :: rest
    else (k, s) :: registryAdd rest name h

/-- `InMemoryEventBus`: `_handlers`, `_event_store`, `_retry_policy`. -/
structure InMemoryEventBus where
  handlers : List (String × List EventHandler)
  event_store : InMemoryEventStore
  retry_policy : RetryPolicy
deriving DecidableEq, Repr

/-- The outcome of one `publish` (or `publish_batch`) call: the updated bus,
the trace of every `handler.handle` invocation as (handler id, attempt
index) pairs in execution order, and the terminal handler failures that the
`except` clause in `publish` caught and logged. -/
structure PublishResult where
  bus : InMemoryEventBus
  trace : List (Nat × Nat)
  caught : List (Nat × String)
deriving DecidableEq, Repr

/-- The `for handler in sorted_handlers` loop of `publish`: each handler is
run through the retry wrapper inside `try/except Exception`; a terminal
failure is logged (recorded in `caught`) and the loop continues. -/
def dispatchList (p : RetryPolicy) (env : HandlerEnv) (e : DomainEvent) :
    List EventHandler → List (Nat × Nat) × List (Nat × String)
  | [] => ([], [])
  | h :: hs =>
    let r := _process_with_retry p env h e
    let rest := dispatchList p env e hs
    (r.1.map (fun a => (h.id, a)) ++ rest.1,
     match r.2 with
     | none => rest.2
     | some exn => (h.id, exn) :: rest.2)

/-- `InMemoryEventBus.publish`: append the original event to the store, make
a `mark_as_published` copy for dispatch, sort the subscribed handlers by
descending priority and run each through the retry wrapper, isolating
failures.  The class name passed to `mark_as_published` is observable only
when `event_type` is empty, which construction rules out, so the event's
own `event_type` stands in for it. -/
def InMemoryEventBus.publish (bus : InMemoryEventBus) (env : HandlerEnv)
    (event : DomainEvent) : PublishResult :=
  let store := bus.event_store.append event
  let published_event := DomainEvent.mark_as_published event.event_type event
  let sorted_handlers :=
    List.insertionSort handlerGE (handlersFor bus.handlers event.event_type)
  let r := dispatchList bus.retry_policy env published_event sorted_handlers
  ⟨⟨bus.handlers, store, bus.retry_policy⟩, r.1, r.2⟩

/-- `InMemoryEventBus.publish_batch`: under the bus lock, `publish` each
event in the given order. -/
def InMemoryEventBus.publish_batch (bus : InMemoryEventBus) (env : HandlerEnv) :
    List DomainEvent → PublishResult
  | [] => ⟨bus, [], []⟩
  | e :: es =>
    let r := bus.publish env e
    let rest := r.bus.publish_batch env es
    ⟨rest.bus, r.trace ++ rest.trace, r.caught ++ rest.caught⟩

/-- `InMemoryEventBus.subscribe`: register the handler under the event
type's name, then additionally under every name in
`handler.supported_events` other than the primary name. -/
def InMemoryEventBus.subscribe (bus : InMemoryEventBus)
    (event_type_name : String) (h : EventHandler) : InMemoryEventBus :=
  let reg1 := registryAdd bus.handlers event_type_name h
  let reg2 := (h.supported_events.filter (fun n => n ≠ event_type_name)).foldl
    (fun r n => registryAdd r n h) reg1
  ⟨reg2, bus.event_store, bus.retry_policy⟩

/-- `transaction_context`: the caller's managed block is modelled by its
outcome — `Except.error exn` when the block raises after accumulating some
events (which are then discarded), `Except.ok events` when it completes
normally having accumulated `events`.  On success the accumulated events
are handed to `publish_batch`; on failure nothing is published, the bus is
untouched and the exception is re-raised (the third component). -/
def transaction_context (bus : InMemoryEventBus) (env : HandlerEnv)
    (block : Except String (List DomainEvent)) :
    InMemoryEventBus × List (Nat × Nat) × Option String :=
  match block with
  | .ok events =>
    let r := bus.publish_batch env events
    (r.bus, r.trace, none)
  | .error exn => (bus, [], some exn)

/-- The delay formula as the specification words it:
`min(initial_delay * backoff_factor^attempt, max_delay)`. -/
def get_delay_spec (p : RetryPolicy) (attempt : Nat) : ℚ :=
  min (p.initial_delay * p.backoff_factor ^ attempt) p.max_delay

/-! ### Concrete instances used to evaluate the development -/

/-- A plain event of type `"E"` with the field defaults. -/
def evE : DomainEvent :=
  ⟨"id1", "E", "agg", "Agg", 1, 0, none, none, .normal, .created, 0, 3, []⟩

/-- An event whose producer set `version = 0`. -/
def ev0 : DomainEvent :=
  ⟨"id0", "E", "agg", "Agg", 0, 0, none, none, .normal, .created, 0, 3, []⟩

/-- A high-priority handler (id 7). -/
def hFail : EventHandler := ⟨7, .high, []⟩

/-- A low-priority handler (id 8). -/
def hOk : EventHandler := ⟨8, .low, []⟩

/-- A handler with the default priority (id 9). -/
def h9 : EventHandler := ⟨9, .normal, []⟩

/-- Handlers of priorities LOW, CRITICAL, NORMAL (ids 0, 1, 2). -/
def hL : EventHandler := ⟨0, .low, []⟩

def hC : EventHandler := ⟨1, .critical, []⟩

def hN : EventHandler := ⟨2, .normal, []⟩

/-- Behaviour: every handler succeeds immediately. -/
def envOk : HandlerEnv := fun _ _ _ => none

/-- Behaviour: every handler raises on every invocation. -/
def envFail : HandlerEnv := fun _ _ _ => some "boom"

/-- Behaviour: handler 7 raises on every invocation, everyone else succeeds. -/
def envFailOnly7 : HandlerEnv := fun i _ _ => if i = 7 then some "boom" else none

/-- A fresh bus with no subscriptions and an empty store. -/
def busEmpty : InMemoryEventBus := ⟨[], ⟨[]⟩, defaultRetryPolicy⟩

/-- A bus with the single always-failing handler subscribed to `"E"`. -/
def busC1 : InMemoryEventBus := ⟨[("E", [hFail])], ⟨[]⟩, defaultRetryPolicy⟩

/-- A bus with a failing high-priority handler and a succeeding low-priority
handler subscribed to `"E"`. -/
def busC2 : InMemoryEventBus := ⟨[("E", [hFail, hOk])], ⟨[]⟩, defaultRetryPolicy⟩

/-- A bus with LOW, CRITICAL, NORMAL handlers subscribed to `"E"` in that
registration order. -/
def busC5 : InMemoryEventBus := ⟨[("E", [hL, hC, hN])], ⟨[]⟩, defaultRetryPolicy⟩

/-- Five events of type `"X"` in append order. -/
def evX1 : DomainEvent :=
  ⟨"x1", "X", "agg", "Agg", 1, 1, none, none, .normal, .created, 0, 3, []⟩

def evX2 : DomainEvent :=
  ⟨"x2", "X", "agg", "Agg", 1, 2, none, none, .normal, .created, 0, 3, []⟩

def evX3 : DomainEvent :=
  ⟨"x3", "X", "agg", "Agg", 1, 3, none, none, .normal, .created, 0, 3, []⟩

def evX4 : DomainEvent :=
  ⟨"x4", "X", "agg", "Agg", 1, 4, none, none, .normal, .created, 0, 3, []⟩

def evX5 : DomainEvent :=
  ⟨"x5", "X", "agg", "Agg", 1, 5, none, none, .normal, .created, 0, 3, []⟩

/-- A store holding the five `"X"` events. -/
def store5 : InMemoryEventStore := ⟨[evX1, evX2, evX3, evX4, evX5]⟩

/-- Constructor arguments with `causation_id="A"` and no `correlation_id`. -/
def argsA : EventArgs :=
  ⟨none, some "E", "agg", "Agg", none, none, some "A", none, none, none, none, none, none⟩

/-- The retry policy of the spec's numerical example. -/
def policyC7 : RetryPolicy := ⟨3, 2, 1, 10, []⟩

/-! ### Development lemmas -/

theorem publish_bus_eq (bus : InMemoryEventBus) (env : HandlerEnv)
    (e : DomainEvent) :
    (bus.publish env e).bus =
      ⟨bus.handlers, bus.event_store.append e, bus.retry_policy⟩ := rfl

theorem publish_batch_bus (env : HandlerEnv) :
    ∀ (es : List DomainEvent) (bus : InMemoryEventBus),
      (bus.publish_batch env es).bus =
        ⟨bus.handlers, ⟨bus.event_store.events ++ es⟩, bus.retry_policy⟩
  | [], bus => by simp [InMemoryEventBus.publish_batch]
  | e :: es, bus => by
    simp only [InMemoryEventBus.publish_batch, publish_batch_bus env es,
      publish_bus_eq]
    simp [InMemoryEventStore.append]

theorem retryAux_mem_le (p : RetryPolicy) (env : HandlerEnv)
    (h : EventHandler) (e : DomainEvent) :
    ∀ (fuel attempt : Nat) (last : Option String) (x : Nat),
      x ∈ (retryAux p env h e fuel attempt last).1 → attempt ≤ x
  | 0, _, _, _, hx => by simp [retryAux] at hx
  | fuel + 1, attempt, last, x, hx => by
    simp only [retryAux] at hx
    cases henv : env h.id e attempt with
    | none =>
      simp only [henv] at hx
      simp at hx
      omega
    | some exn =>
      simp only [henv] at hx
      by_cases hr : p.should_retry exn (attempt + 1) = true
      · simp only [if_pos hr] at hx
        rcases List.mem_cons.mp hx with hx | hx
        · omega
        · have := retryAux_mem_le p env h e fuel (attempt + 1) (some exn) x hx
          omega
      · simp only [if_neg hr] at hx
        simp at hx
        omega

theorem retryAux_count_self (p : RetryPolicy) (env : HandlerEnv)
    (h : EventHandler) (e : DomainEvent) (fuel attempt : Nat)
    (last : Option String) (hf : 0 < fuel) :
    List.count attempt (retryAux p env h e fuel attempt last).1 = 1 := by
  cases fuel with
  | zero => omega
  | succ fuel =>
    cases henv : env h.id e attempt with
    | none => simp [retryAux, henv]
    | some exn =>
      by_cases hr : p.should_retry exn (attempt + 1) = true
      · have hnot : attempt ∉ (retryAux p env h e fuel (attempt + 1) (some exn)).1 := by
          intro hmem
          have := retryAux_mem_le p env h e fuel (attempt + 1) (some exn) attempt hmem
          omega
        simp [retryAux, henv, if_pos hr, List.count_cons,
          List.count_eq_zero.mpr hnot]
      · simp [retryAux, henv, if_neg hr]

theorem retryAux_cons (p : RetryPolicy) (env : HandlerEnv) (h : EventHandler)
    (e : DomainEvent) (fuel attempt : Nat) (last : Option String)
    (hf : 0 < fuel) :
    ∃ t, (retryAux p env h e fuel attempt last).1 = attempt :: t := by
  cases fuel with
  | zero => omega
  | succ fuel =>
    cases henv : env h.id e attempt with
    | none => exact ⟨[], by simp [retryAux, henv]⟩
    | some exn =>
      by_cases hr : p.should_retry exn (attempt + 1) = true
      · exact ⟨(retryAux p env h e fuel (attempt + 1) (some exn)).1,
          by simp [retryAux, henv, if_pos hr]⟩
      · exact ⟨[], by simp [retryAux, henv, if_neg hr]⟩

theorem process_count_zero (p : RetryPolicy) (env : HandlerEnv)
    (h : EventHandler) (e : DomainEvent) :
    List.count 0 (_process_with_retry p env h e).1 = 1 :=
  retryAux_count_self p env h e (p.max_retries + 1) 0 none (Nat.succ_pos _)

theorem process_cons (p : RetryPolicy) (env : HandlerEnv) (h : EventHandler)
    (e : DomainEvent) :
    ∃ t, (_process_with_retry p env h e).1 = 0 :: t :=
  retryAux_cons p env h e (p.max_retries + 1) 0 none (Nat.succ_pos _)

/-- `should_retry` under an empty allow-list decides `attempt < max_retries`. -/
theorem should_retry_empty (p : RetryPolicy) (exn : String) (attempt : Nat)
    (hempty : p.retry_on_exceptions = []) :
    p.should_retry exn attempt = decide (attempt < p.max_retries) := by
  simp only [RetryPolicy.should_retry, hempty, List.isEmpty_nil, if_true]
  by_cases hc : p.max_retries ≤ attempt
  · rw [if_pos hc]
    simp
    omega
  · rw [if_neg hc]
    simp
    omega

/-- The retry loop on an always-failing handler under a policy with an empty
allow-list: since `should_retry` is consulted with the already-incremented
attempt, the loop performs `max_retries - attempt` further invocations when
`attempt < max_retries`. -/
theorem retryAux_len_fail (p : RetryPolicy) (env : HandlerEnv)
    (h : EventHandler) (e : DomainEvent)
    (hfail : ∀ a, env h.id e a ≠ none)
    (hempty : p.retry_on_exceptions = []) :
    ∀ (fuel attempt : Nat) (last : Option String),
      attempt < p.max_retries → p.max_retries ≤ attempt + fuel →
      (retryAux p env h e fuel attempt last).1.length = p.max_retries - attempt
  | 0, attempt, _, hlt, hle => by omega
  | fuel + 1, attempt, last, hlt, hle => by
    cases henv : env h.id e attempt with
    | none => exact absurd henv (hfail attempt)
    | some exn =>
      by_cases hlt2 : attempt + 1 < p.max_retries
      · have hr : p.should_retry exn (attempt + 1) = true := by
          rw [should_retry_empty p exn (attempt + 1) hempty]
          simpa using hlt2
        have ih := retryAux_len_fail p env h e hfail hempty fuel (attempt + 1)
          (some exn) hlt2 (by omega)
        simp only [retryAux, henv, if_pos hr, List.length_cons, ih]
        omega
      · have hr : p.should_retry exn (attempt + 1) = false := by
          rw [should_retry_empty p exn (attempt + 1) hempty]
          simpa using hlt2
        simp only [retryAux, henv, hr, Bool.false_eq_true, if_false,
          List.length_singleton]
        omega

/-- `_process_with_retry` invokes an always-failing handler
`max(max_retries, 1)` times when the policy's allow-list is empty. -/
theorem process_len_fail (p : RetryPolicy) (env : HandlerEnv)
    (h : EventHandler) (e : DomainEvent)
    (hfail : ∀ a, env h.id e a ≠ none)
    (hempty : p.retry_on_exceptions = []) :
    (_process_with_retry p env h e).1.length = max p.max_retries 1 := by
  by_cases hmr : p.max_retries = 0
  · unfold _process_with_retry
    cases henv : env h.id e 0 with
    | none => exact absurd henv (hfail 0)
    | some exn =>
      have hr : p.should_retry exn 1 = false := by
        simp [RetryPolicy.should_retry, hmr]
      rw [hmr]
      simp only [retryAux, henv]
      split <;> simp
  · unfold _process_with_retry
    rw [retryAux_len_fail p env h e hfail hempty (p.max_retries + 1) 0 none
      (by omega) (by omega)]
    omega

theorem count_pair_map_eq (i : Nat) (l : List Nat) (x : Nat) :
    ((l.map fun a => (i, a)).count (i, x)) = l.count x := by
  induction l with
  | nil => rfl
  | cons a t ih =>
    by_cases hax : a = x
    · subst hax
      simp [List.count_cons, ih]
    · simp [List.count_cons, ih, hax]

theorem count_pair_map_ne (i j : Nat) (hne : j ≠ i) (l : List Nat) (x : Nat) :
    ((l.map fun a => (j, a)).count (i, x)) = 0 := by
  rw [List.count_eq_zero]
  intro hmem
  rcases List.mem_map.mp hmem with ⟨a, _, ha⟩
  exact hne (congrArg Prod.fst ha)

theorem filter_snd_zero_map (i : Nat) (l : List Nat) :
    ((l.map fun a => (i, a)).filter fun q => q.2 == 0) =
      (l.filter fun a => a == 0).map fun a => (i, a) := by
  induction l with
  | nil => rfl
  | cons a t ih =>
    by_cases ha : a = 0
    · subst ha
      simp [ih]
    · simp [ih, ha]

theorem retry_filter_zero (p : RetryPolicy) (env : HandlerEnv)
    (h : EventHandler) (e : DomainEvent) :
    ((_process_with_retry p env h e).1.filter fun a => a == 0) = [0] := by
  obtain ⟨t, ht⟩ := process_cons p env h e
  have hcount := process_count_zero p env h e
  rw [ht] at hcount ⊢
  have htz : List.count 0 t = 0 := by
    rw [List.count_cons] at hcount
    simpa using hcount
  have hnm : 0 ∉ t := List.count_eq_zero.mp htz
  have : (t.filter fun a => a == 0) = [] := by
    rw [List.filter_eq_nil_iff]
    intro x hx
    simp only [beq_iff_eq]
    intro hx0
    exact hnm (hx0 ▸ hx)
  simp [this]

theorem dispatch_first_trace (p : RetryPolicy) (env : HandlerEnv)
    (e : DomainEvent) :
    ∀ hs : List EventHandler,
      (((dispatchList p env e hs).1.filter fun q => q.2 == 0).map Prod.fst) =
        hs.map EventHandler.id
  | [] => rfl
  | h :: hs => by
    simp only [dispatchList]
    rw [List.filter_append, filter_snd_zero_map, retry_filter_zero]
    simp [dispatch_first_trace p env e hs]

theorem dispatch_mem_first (p : RetryPolicy) (env : HandlerEnv)
    (e : DomainEvent) :
    ∀ (hs : List EventHandler) (h : EventHandler), h ∈ hs →
      (h.id, 0) ∈ (dispatchList p env e hs).1
  | h' :: hs, h, hmem => by
    simp only [dispatchList]
    rcases List.mem_cons.mp hmem with rfl | hmem
    · apply List.mem_append_left
      obtain ⟨t, ht⟩ := process_cons p env h e
      rw [ht]
      exact List.mem_map_of_mem _ (List.mem_cons_self 0 t)
    · exact List.mem_append_right _ (dispatch_mem_first p env e hs h hmem)

theorem dispatch_caught_of_fail (p : RetryPolicy) (env : HandlerEnv)
    (e : DomainEvent) :
    ∀ (hs : List EventHandler) (h : EventHandler) (ex : String), h ∈ hs →
      (_process_with_retry p env h e).2 = some ex →
      (h.id, ex) ∈ (dispatchList p env e hs).2
  | h' :: hs, h, ex, hmem, hfail => by
    simp only [dispatchList]
    rcases List.mem_cons.mp hmem with rfl | hmem
    · rw [hfail]
      exact List.mem_cons_self _ _
    · have ih := dispatch_caught_of_fail p env e hs h ex hmem hfail
      cases (_process_with_retry p env h' e).2 with
      | none => exact ih
      | some ex' => exact List.mem_cons_of_mem _ ih

theorem dispatch_count_first (p : RetryPolicy) (env : HandlerEnv)
    (e : DomainEvent) (i : Nat) :
    ∀ hs : List EventHandler,
      ((dispatchList p env e hs).1.count (i, 0)) =
        hs.countP fun h => h.id == i
  | [] => rfl
  | h :: hs => by
    simp only [dispatchList]
    rw [List.count_append, dispatch_count_first p env e i hs,
      List.countP_cons]
    by_cases hid : h.id = i
    · subst hid
      rw [count_pair_map_eq, process_count_zero]
      simp [Nat.add_comm]
    · rw [count_pair_map_ne i h.id hid]
      simp [hid]

theorem pairwise_lt_of_ge_ne :
    ∀ l : List EventHandler, l.Pairwise handlerGE →
      l.Pairwise (fun a b => a.priority.value ≠ b.priority.value) →
      l.Pairwise fun a b => b.priority.value < a.priority.value
  | [], _, _ => List.Pairwise.nil
  | a :: t, hS, hN => by
    rcases hS with _ | ⟨haS, hS⟩
    rcases hN with _ | ⟨haN, hN⟩
    exact List.Pairwise.cons
      (fun b hb => Nat.lt_of_le_of_ne (haS b hb) (haN b hb).symm)
      (pairwise_lt_of_ge_ne t hS hN)

/-- A stably descending-sorted handler list with pairwise-distinct priority
values is strictly descending. -/
theorem sorted_strict_of_nodup (hs : List EventHandler)
    (hnd : (hs.map fun h => h.priority.value).Nodup) :
    (List.insertionSort handlerGE hs).Pairwise
      fun a b => b.priority.value < a.priority.value := by
  have hsorted : (List.insertionSort handlerGE hs).Pairwise handlerGE :=
    List.sorted_insertionSort handlerGE hs
  have hperm := List.perm_insertionSort handlerGE hs
  have hne0 : hs.Pairwise fun a b => a.priority.value ≠ b.priority.value := by
    rw [List.Nodup, List.pairwise_map] at hnd
    exact hnd
  have hne : (List.insertionSort handlerGE hs).Pairwise
      fun a b => a.priority.value ≠ b.priority.value :=
    (hperm.pairwise_iff fun h' => h'.symm).mpr hne0
  exact pairwise_lt_of_ge_ne _ hsorted hne

theorem publish_trace_eq (bus : InMemoryEventBus) (env : HandlerEnv)
    (e : DomainEvent) :
    (bus.publish env e).trace =
      (dispatchList bus.retry_policy env
        (DomainEvent.mark_as_published e.event_type e)
        (List.insertionSort handlerGE
          (handlersFor bus.handlers e.event_type))).1 := rfl

theorem publish_caught_eq (bus : InMemoryEventBus) (env : HandlerEnv)
    (e : DomainEvent) :
    (bus.publish env e).caught =
      (dispatchList bus.retry_policy env
        (DomainEvent.mark_as_published e.event_type e)
        (List.insertionSort handlerGE
          (handlersFor bus.handlers e.event_type))).2 := rfl

theorem mem_setAdd_self (s : List EventHandler) (h : EventHandler) :
    h ∈ setAdd s h := by
  unfold setAdd
  by_cases hm : h ∈ s
  · simp [hm]
  · simp [hm]

theorem mem_setAdd_of_mem (s : List EventHandler) (h h' : EventHandler)
    (hm : h' ∈ s) : h' ∈ setAdd s h := by
  unfold setAdd
  by_cases hm2 : h ∈ s
  · simpa [hm2]
  · simp [hm2, hm]

theorem setAdd_of_mem (s : List EventHandler) (h : EventHandler)
    (hm : h ∈ s) : setAdd s h = s := by
  simp [setAdd, hm]

theorem setAdd_of_not_mem (s : List EventHandler) (h : EventHandler)
    (hm : h ∉ s) : setAdd s h = s ++ [h] := by
  simp [setAdd, hm]

theorem handlersFor_registryAdd_same (h : EventHandler) (n : String) :
    ∀ reg, handlersFor (registryAdd reg n h) n = setAdd (handlersFor reg n) h
  | [] => by simp [registryAdd, handlersFor, setAdd]
  | (k, s) :: rest => by
    by_cases hk : k = n
    · subst hk
      simp [registryAdd, handlersFor]
    · simp [registryAdd, handlersFor, hk,
        handlersFor_registryAdd_same h n rest]

theorem handlersFor_registryAdd_other (h : EventHandler) (n m : String)
    (hne : n ≠ m) :
    ∀ reg, handlersFor (registryAdd reg n h) m = handlersFor reg m
  | [] => by simp [registryAdd, handlersFor, hne]
  | (k, s) :: rest => by
    by_cases hk : k = n
    · subst hk
      simp [registryAdd, handlersFor, hne]
    · simp [registryAdd, handlersFor, hk,
        handlersFor_registryAdd_other h n m hne rest]

theorem registryAdd_of_mem (h : EventHandler) (n : String) :
    ∀ reg, h ∈ handlersFor reg n → registryAdd reg n h = reg
  | [], hm => by simp [handlersFor] at hm
  | (k, s) :: rest, hm => by
    by_cases hk : k = n
    · subst hk
      simp [handlersFor] at hm
      simp [registryAdd, setAdd_of_mem s h hm]
    · simp [handlersFor, hk] at hm
      simp [registryAdd, hk, registryAdd_of_mem h n rest hm]

theorem mem_handlersFor_registryAdd (h h' : EventHandler) (n m : String)
    (reg : List (String × List EventHandler))
    (hm : h' ∈ handlersFor reg m) :
    h' ∈ handlersFor (registryAdd reg n h) m := by
  by_cases hnm : n = m
  · subst hnm
    rw [handlersFor_registryAdd_same]
    exact mem_setAdd_of_mem _ h h' hm
  · rwa [handlersFor_registryAdd_other h n m hnm]

theorem mem_handlersFor_fold (h h' : EventHandler) :
    ∀ (names : List String) (reg : List (String × List EventHandler))
      (m : String), h' ∈ handlersFor reg m →
      h' ∈ handlersFor (names.foldl (fun r n => registryAdd r n h) reg) m
  | [], _, _, hm => hm
  | n :: names, reg, m, hm =>
    mem_handlersFor_fold h h' names (registryAdd reg n h) m
      (mem_handlersFor_registryAdd h h' n m reg hm)

theorem fold_mem_self (h : EventHandler) :
    ∀ (names : List String) (reg : List (String × List EventHandler))
      (n : String), n ∈ names →
      h ∈ handlersFor (names.foldl (fun r n => registryAdd r n h) reg) n
  | n0 :: names, reg, n, hmem => by
    rcases List.mem_cons.mp hmem with rfl | hmem
    · apply mem_handlersFor_fold h h names (registryAdd reg n h) n
      rw [handlersFor_registryAdd_same]
      exact mem_setAdd_self _ h
    · exact fold_mem_self h names (registryAdd reg n0 h) n hmem

theorem fold_of_mem_all (h : EventHandler) :
    ∀ (names : List String) (reg : List (String × List EventHandler)),
      (∀ n ∈ names, h ∈ handlersFor reg n) →
      names.foldl (fun r n => registryAdd r n h) reg = reg
  | [], _, _ => rfl
  | n :: names, reg, hall => by
    have h1 : registryAdd reg n h = reg :=
      registryAdd_of_mem h n reg (hall n (List.mem_cons_self n names))
    simp only [List.foldl_cons, h1]
    exact fold_of_mem_all h names reg
      fun m hm => hall m (List.mem_cons_of_mem n hm)

theorem handlersFor_fold_of_not_mem (h : EventHandler) :
    ∀ (names : List String) (reg : List (String × List EventHandler))
      (m : String), m ∉ names →
      handlersFor (names.foldl (fun r n => registryAdd r n h) reg) m =
        handlersFor reg m
  | [], _, _, _ => rfl
  | n :: names, reg, m, hnm => by
    have hne : n ≠ m := fun hc => hnm (hc ▸ List.mem_cons_self n names)
    simp only [List.foldl_cons]
    rw [handlersFor_fold_of_not_mem h names (registryAdd reg n h) m
      (fun hc => hnm (List.mem_cons_of_mem n hc))]
    exact handlersFor_registryAdd_other h n m hne reg

theorem subscribe_handlersFor_primary (b : InMemoryEventBus) (tname : String)
    (h : EventHandler) :
    handlersFor (b.subscribe tname h).handlers tname =
      setAdd (handlersFor b.handlers tname) h := by
  show handlersFor
    ((h.supported_events.filter fun n => n ≠ tname).foldl
      (fun r n => registryAdd r n h) (registryAdd b.handlers tname h))
    tname = _
  rw [handlersFor_fold_of_not_mem h _ _ tname (by simp)]
  exact handlersFor_registryAdd_same h tname b.handlers

theorem subscribe_mem_primary (b : InMemoryEventBus) (tname : String)
    (h : EventHandler) :
    h ∈ handlersFor (b.subscribe tname h).handlers tname := by
  rw [subscribe_handlersFor_primary]
  exact mem_setAdd_self _ h

theorem subscribe_idem (b : InMemoryEventBus) (tname : String)
    (h : EventHandler) :
    (b.subscribe tname h).subscribe tname h = b.subscribe tname h := by
  show InMemoryEventBus.mk
    ((h.supported_events.filter fun n => n ≠ tname).foldl
      (fun r n => registryAdd r n h)
      (registryAdd (b.subscribe tname h).handlers tname h))
    (b.subscribe tname h).event_store
    (b.subscribe tname h).retry_policy = b.subscribe tname h
  rw [registryAdd_of_mem h tname _ (subscribe_mem_primary b tname h)]
  rw [fold_of_mem_all h _ _ ?hall]
  case hall =>
    intro n hn
    show h ∈ handlersFor
      ((h.supported_events.filter fun n => n ≠ tname).foldl
        (fun r n => registryAdd r n h) (registryAdd b.handlers tname h)) n
    exact fold_mem_self h _ _ n hn

theorem typeSinceMatches_true (event_type : String) (since : Option Nat)
    (ev : DomainEvent) (hp : typeSinceMatches event_type since ev = true) :
    ev.event_type = event_type ∧ ∀ d, since = some d → d ≤ ev.occurred_on := by
  cases since with
  | none =>
    simp [typeSinceMatches] at hp
    exact ⟨hp, by simp⟩
  | some d =>
    simp [typeSinceMatches] at hp
    exact ⟨hp.1, fun d' hd' => by
      cases hd'
      exact hp.2⟩

/-! ### Claims -/

/-- C1 (code bug evaluation): on the bus's actual retry policy
(`RetryPolicy()` with `max_retries = 3`), a single `publish` invokes an
always-raising handler exactly 3 times — attempts 0, 1 and 2 — not the
`max_retries + 1 = 4` times the specification states, because
`should_retry` is consulted with the already-incremented attempt counter
and therefore denies the final retry.  `publish` itself returns normally:
the terminal failure is caught and logged, not raised. -/
theorem C1_retry_count_eval :
    defaultRetryPolicy.max_retries = 3 ∧
    (busC1.publish envFail evE).trace = [(7, 0), (7, 1), (7, 2)] ∧
    (busC1.publish envFail evE).caught = [(7, "boom")] := by
  refine ⟨rfl, ?_, ?_⟩ <;> decide

/-- C2: every handler subscribed to a published event's type is dispatched
(its first invocation, attempt 0, appears in the trace) regardless of any
other handler's terminal failure, and a handler's own terminal failure is
caught by `publish` — it lands in the logged `caught` list of the normal
result rather than propagating to the caller. -/
theorem C2_failure_isolation (bus : InMemoryEventBus) (env : HandlerEnv)
    (e : DomainEvent) (h : EventHandler) (ex : String)
    (hmem : h ∈ handlersFor bus.handlers e.event_type) :
    (h.id, 0) ∈ (bus.publish env e).trace ∧
    ((_process_with_retry bus.retry_policy env h
        (DomainEvent.mark_as_published e.event_type e)).2 = some ex →
      (h.id, ex) ∈ (bus.publish env e).caught) := by
  have hmem2 : h ∈ List.insertionSort handlerGE
      (handlersFor bus.handlers e.event_type) :=
    (List.mem_insertionSort handlerGE).mpr hmem
  constructor
  · rw [publish_trace_eq]
    exact dispatch_mem_first _ env _ _ h hmem2
  · intro hfail
    rw [publish_caught_eq]
    exact dispatch_caught_of_fail _ env _ _ h ex hmem2 hfail

theorem C2_witness :
    (hFail ∈ handlersFor busC2.handlers evE.event_type ∧
     hOk ∈ handlersFor busC2.handlers evE.event_type) ∧
    (hOk.id, 0) ∈ (busC2.publish envFailOnly7 evE).trace ∧
    (hFail.id, "boom") ∈ (busC2.publish envFailOnly7 evE).caught := by
  refine ⟨⟨by decide, by decide⟩, ?_, ?_⟩
  · exact (C2_failure_isolation busC2 envFailOnly7 evE hOk "boom"
      (by decide)).1
  · exact (C2_failure_isolation busC2 envFailOnly7 evE hFail "boom"
      (by decide)).2 (by decide)

/-- C3 (counterexample): an event whose producer set `version = 0` is
appended to the store by `publish`, yet
`get_events_for_aggregate(aggregate_id, aggregate_type)` with the default
`since_version = 0` filters on `version > 0` and therefore does not contain
it at all — not "exactly once" as claimed. -/
theorem C3_counterexample_version_zero :
    ((busEmpty.publish envOk ev0).bus.event_store.get_events_for_aggregate
      "agg" "Agg" 0).count ev0 = 0 ∧
    (busEmpty.publish envOk ev0).bus.event_store.events = [ev0] := by
  constructor <;> decide

/-- C3 (amended): for an event with `version > 0` (so that it passes the
default `since_version = 0` filter), `publish` extends the aggregate query
result by exactly the unmodified original event (its status is untouched);
in particular, when the event was not already stored, the query afterwards
contains it exactly once. -/
theorem C3_publish_store_amended (bus : InMemoryEventBus) (env : HandlerEnv)
    (e : DomainEvent) (hv : 0 < e.version) :
    ((bus.publish env e).bus.event_store.get_events_for_aggregate
        e.aggregate_id e.aggregate_type 0 =
      bus.event_store.get_events_for_aggregate e.aggregate_id
        e.aggregate_type 0 ++ [e]) ∧
    (e ∉ bus.event_store.events →
      ((bus.publish env e).bus.event_store.get_events_for_aggregate
        e.aggregate_id e.aggregate_type 0).count e = 1) := by
  have h1 : (bus.publish env e).bus.event_store.get_events_for_aggregate
      e.aggregate_id e.aggregate_type 0 =
      bus.event_store.get_events_for_aggregate e.aggregate_id
        e.aggregate_type 0 ++ [e] := by
    show (bus.event_store.append e).get_events_for_aggregate
      e.aggregate_id e.aggregate_type 0 = _
    simp [InMemoryEventStore.append,
      InMemoryEventStore.get_events_for_aggregate, List.filter_append, hv]
  refine ⟨h1, fun hnm => ?_⟩
  rw [h1, List.count_append]
  have hq : (bus.event_store.get_events_for_aggregate e.aggregate_id
      e.aggregate_type 0).count e = 0 := by
    rw [List.count_eq_zero]
    intro hc
    exact hnm ((List.filter_sublist bus.event_store.events).subset hc)
  simp [hq]

theorem C3_witness :
    (0 < evE.version ∧ evE ∉ busEmpty.event_store.events) ∧
    ((busEmpty.publish envOk evE).bus.event_store.get_events_for_aggregate
      evE.aggregate_id evE.aggregate_type 0).count evE = 1 := by
  refine ⟨⟨by decide, by decide⟩, ?_⟩
  exact (C3_publish_store_amended busEmpty envOk evE (by decide)).2 (by decide)

/-- C4: the transaction context publishes nothing and re-raises the block's
exception unchanged when the managed block fails, leaving the bus (and its
store) untouched; on normal exit it hands every accumulated event to
`publish_batch`, and the store afterwards holds exactly the old events
followed by the accumulated ones in append order. -/
theorem C4_transaction_atomicity (bus : InMemoryEventBus) (env : HandlerEnv) :
    (∀ exn : String,
      transaction_context bus env (Except.error exn) = (bus, [], some exn)) ∧
    (∀ events : List DomainEvent,
      (transaction_context bus env (Except.ok events)).2.2 = none ∧
      (transaction_context bus env (Except.ok events)).1 =
        (bus.publish_batch env events).bus ∧
      (transaction_context bus env (Except.ok events)).2.1 =
        (bus.publish_batch env events).trace ∧
      (transaction_context bus env (Except.ok events)).1.event_store.events =
        bus.event_store.events ++ events) :=
  ⟨fun _ => rfl,
   fun events =>
    ⟨rfl, rfl, rfl, by
      show (bus.publish_batch env events).bus.event_store.events = _
      rw [publish_batch_bus]⟩⟩

/-- C5: within one `publish`, handlers are dispatched in descending
priority order: the sequence of first invocations equals the stable
descending sort of the subscribed handlers, which is a permutation of them
and — when their priority values are pairwise distinct — strictly
descending in priority. -/
theorem C5_priority_dispatch_order (bus : InMemoryEventBus)
    (env : HandlerEnv) (e : DomainEvent)
    (hnd : ((handlersFor bus.handlers e.event_type).map
      fun h => h.priority.value).Nodup) :
    (((bus.publish env e).trace.filter fun q => q.2 == 0).map Prod.fst =
      (List.insertionSort handlerGE
        (handlersFor bus.handlers e.event_type)).map EventHandler.id) ∧
    (List.insertionSort handlerGE
      (handlersFor bus.handlers e.event_type)).Perm
        (handlersFor bus.handlers e.event_type) ∧
    (List.insertionSort handlerGE
      (handlersFor bus.handlers e.event_type)).Pairwise
        fun a b => b.priority.value < a.priority.value := by
  refine ⟨?_, List.perm_insertionSort handlerGE _,
    sorted_strict_of_nodup _ hnd⟩
  rw [publish_trace_eq]
  exact dispatch_first_trace _ env _ _

theorem C5_witness :
    ((handlersFor busC5.handlers evE.event_type).map
      fun h => h.priority.value).Nodup ∧
    ((busC5.publish envOk evE).trace.filter fun q => q.2 == 0).map Prod.fst =
      [hC.id, hN.id, hL.id] := by
  refine ⟨by decide, ?_⟩
  have h1 := (C5_priority_dispatch_order busC5 envOk evE (by decide)).1
  rw [h1]
  decide

/-- C6: an event constructed with a truthy (non-empty, non-None)
`causation_id` and no `correlation_id` key inherits the causation id as its
correlation id. -/
theorem C6_correlation_inherits_causation (className freshId : String)
    (now : Nat) (args : EventArgs) (c : String)
    (hc : args.causation_id = some c) (hne : c ≠ "")
    (habs : args.correlation_id = none) :
    (DomainEvent.construct className freshId now args).correlation_id =
      some c := by
  simp [DomainEvent.construct, set_correlation_chain, hc, habs, truthyStr,
    hne]

theorem C6_witness :
    (argsA.causation_id = some "A" ∧ "A" ≠ "" ∧
      argsA.correlation_id = none) ∧
    (DomainEvent.construct "Evt" "fresh" 0 argsA).correlation_id =
      some "A" :=
  ⟨⟨rfl, by decide, rfl⟩,
   C6_correlation_inherits_causation "Evt" "fresh" 0 argsA "A" rfl
    (by decide) rfl⟩

/-- C7: `get_delay` computes exactly the specification's formula
`min(initial_delay * backoff_factor^attempt, max_delay)` for every policy
and attempt, and on the policy `(3, 2.0, 1.0, 10.0)` yields `8.0` at
attempt 3 and the ceiling `10.0` at attempt 10. -/
theorem C7_get_delay_formula :
    (∀ (p : RetryPolicy) (attempt : Nat),
      p.get_delay attempt = get_delay_spec p attempt) ∧
    policyC7.get_delay 3 = 8 ∧ policyC7.get_delay 10 = 10 :=
  ⟨fun _ _ => rfl,
   by norm_num [RetryPolicy.get_delay, policyC7, min_def],
   by norm_num [RetryPolicy.get_delay, policyC7, min_def]⟩

/-- C8: `get_events_by_type` returns exactly the stored events of the given
type occurring on/after `since`, in append order (a sublist of the store);
with `limit = 0` the whole filtered sequence is returned, and with
`limit > 0` the result is the suffix — the most recently appended — of the
filtered sequence of length `min limit`. -/
theorem C8_get_events_by_type_spec (s : InMemoryEventStore)
    (event_type : String) (since : Option Nat) (limit : Nat) :
    (∀ ev ∈ s.get_events_by_type event_type since limit,
      ev.event_type = event_type ∧
        ∀ d, since = some d → d ≤ ev.occurred_on) ∧
    (s.get_events_by_type event_type since limit).Sublist s.events ∧
    (limit = 0 → s.get_events_by_type event_type since limit =
      s.events.filter (typeSinceMatches event_type since)) ∧
    (0 < limit →
      (s.get_events_by_type event_type since limit).IsSuffix
        (s.events.filter (typeSinceMatches event_type since)) ∧
      (s.get_events_by_type event_type since limit).length =
        min limit (s.events.filter (typeSinceMatches event_type since)).length) := by
  by_cases hl : 0 < limit
  · have hres : s.get_events_by_type event_type since limit =
        (s.events.filter (typeSinceMatches event_type since)).drop
          ((s.events.filter (typeSinceMatches event_type since)).length -
            limit) := by
      simp [InMemoryEventStore.get_events_by_type, hl]
    have hsuf : (s.get_events_by_type event_type since limit).IsSuffix
        (s.events.filter (typeSinceMatches event_type since)) := by
      rw [hres]
      exact List.drop_suffix _ _
    refine ⟨?_, hsuf.sublist.trans (List.filter_sublist s.events),
      fun h0 => absurd h0 (by omega), fun _ => ⟨hsuf, ?_⟩⟩
    · intro ev hev
      have hf : ev ∈ s.events.filter (typeSinceMatches event_type since) :=
        hsuf.sublist.subset hev
      exact typeSinceMatches_true event_type since ev
        (List.mem_filter.mp hf).2
    · rw [hres, List.length_drop]
      omega
  · have h0 : limit = 0 := by omega
    have hres : s.get_events_by_type event_type since limit =
        s.events.filter (typeSinceMatches event_type since) := by
      simp [InMemoryEventStore.get_events_by_type, hl]
    refine ⟨?_, ?_, fun _ => hres, fun hc => absurd hc hl⟩
    · intro ev hev
      rw [hres] at hev
      exact typeSinceMatches_true event_type since ev
        (List.mem_filter.mp hev).2
    · rw [hres]
      exact List.filter_sublist s.events

theorem C8_witness :
    0 < 2 ∧
    ((store5.get_events_by_type "X" none 2).IsSuffix
      (store5.events.filter (typeSinceMatches "X" none)) ∧
     (store5.get_events_by_type "X" none 2).length =
      min 2 (store5.events.filter (typeSinceMatches "X" none)).length) :=
  ⟨Nat.zero_lt_succ 1,
   (C8_get_events_by_type_spec store5 "X" none 2).2.2.2 (Nat.zero_lt_succ 1)⟩

/-- The concrete instance behind C8's witness: over five stored `"X"`
events, `limit = 2` returns exactly the two most recently appended. -/
example : store5.get_events_by_type "X" none 2 = [evX4, evX5] := by decide

/-- C9: subscribing the same handler to the same event type twice yields a
bus identical to subscribing once, and a publish of a matching event on the
subscribed bus dispatches the handler exactly once (one attempt-0 trace
entry carries its id), provided no already-registered handler shares the
id (Python object identity). -/
theorem C9_subscribe_idempotent_dispatch (b : InMemoryEventBus)
    (tname : String) (h : EventHandler) :
    (b.subscribe tname h).subscribe tname h = b.subscribe tname h ∧
    ∀ (env : HandlerEnv) (e : DomainEvent), e.event_type = tname →
      (∀ h' ∈ handlersFor b.handlers tname, h'.id ≠ h.id) →
      ((b.subscribe tname h).publish env e).trace.count (h.id, 0) = 1 := by
  refine ⟨subscribe_idem b tname h, ?_⟩
  intro env e het hfresh
  rw [publish_trace_eq, dispatch_count_first]
  rw [(List.perm_insertionSort handlerGE _).countP_eq]
  rw [het, subscribe_handlersFor_primary]
  have hnm : h ∉ handlersFor b.handlers tname := fun hc => hfresh h hc rfl
  rw [setAdd_of_not_mem _ h hnm, List.countP_append]
  have h0 : (handlersFor b.handlers tname).countP
      (fun h' => h'.id == h.id) = 0 :=
    List.countP_eq_zero.mpr fun h' hm => by simpa using hfresh h' hm
  simp [h0]

theorem C9_witness :
    (evE.event_type = "E" ∧
      ∀ h' ∈ handlersFor busEmpty.handlers "E", h'.id ≠ h9.id) ∧
    ((busEmpty.subscribe "E" h9).publish envOk evE).trace.count (h9.id, 0) =
      1 := by
  refine ⟨⟨rfl, by decide⟩, ?_⟩
  exact (C9_subscribe_idempotent_dispatch busEmpty "E" h9).2 envOk evE rfl
    (by decide)

/-- C10: each `mark_as_*` method returns a copy differing from the original
event only in `status` (every other field — ids, types, version, timestamp,
causation/correlation, priority, retry bookkeeping, metadata — is equal);
the original is untouched (the model is pure, the Python method does not
mutate `self`).  The hypothesis `event_type ≠ ""` is an invariant of every
constructed event (`set_event_type` replaces a falsy value with the class
name, which is never empty). -/
theorem C10_mark_status_frame (className : String) (e : DomainEvent)
    (hne : e.event_type ≠ "") :
    DomainEvent.mark_as_published className e =
      { e with status := .published } ∧
    DomainEvent.mark_as_processed className e =
      { e with status := .processed } ∧
    DomainEvent.mark_as_failed className e = { e with status := .failed } := by
  refine ⟨?_, ?_, ?_⟩ <;>
    simp [DomainEvent.mark_as_published, DomainEvent.mark_as_processed,
      DomainEvent.mark_as_failed, DomainEvent.construct,
      DomainEvent.dumpArgs, set_correlation_chain, hne]

theorem C10_witness :
    evE.event_type ≠ "" ∧
    (DomainEvent.mark_as_published "Evt" evE =
      { evE with status := .published } ∧
     DomainEvent.mark_as_processed "Evt" evE =
      { evE with status := .processed } ∧
     DomainEvent.mark_as_failed "Evt" evE =
      { evE with status := .failed }) :=
  ⟨by decide, C10_mark_status_frame "Evt" evE (by decide)⟩
